import Mathlib

/-!
# Verification of the go-clean-architecture user service

Shallow embedding of the user-facing core of the repository:
the user entity (`internal/entity/user.go`), the GORM-backed user store
(`internal/repository/user_repository_impl.go`), the use-case layer
(`internal/usecase/user_usecase.go`), the HTTP handlers
(`internal/handler/user_handler.go`), the response helpers
(`pkg/response/response.go`) and the pagination handling.

External primitives that live outside the repository (bcrypt hashing and
verification, the JWT library) are passed in as function parameters to the
use-case layer, mirroring how the Go code receives them through
`pkg/utils`.  Database writes are modelled by explicit state passing on a
`Store` value; GORM's soft-delete query scope is modelled by filtering out
rows whose `deletedAt` is set.  Machine integers are modelled as `Int`
(Go `int` / `int64`), with Go's wrapping 64-bit arithmetic made explicit
where a verified path can overflow: the pagination offset
`(page - 1) * limit` is computed through `wrap64`, and `strconv.Atoi`'s
clamp of out-of-range numerals to MaxInt64 / MinInt64 is modelled in
`atoiOrZero`.
-/

namespace CleanArch

/-- `internal/entity/user.go`: the `User` GORM model.  Timestamps are
abstract instants (`Nat`); `deletedAt` is the nullable soft-delete
marker (`gorm.DeletedAt`). -/
structure User where
  id : Nat
  name : String
  email : String
  password : String
  role : String
  isActive : Bool
  createdAt : Nat
  updatedAt : Nat
  deletedAt : Option Nat
deriving Repr, DecidableEq

/-- The users table: rows in insertion order plus the next auto-increment
primary key. -/
structure Store where
  users : List User
  nextId : Nat
deriving Repr, DecidableEq

/-- A row is visible to GORM queries unless soft-deleted (GORM's default
scope adds `WHERE deleted_at IS NULL`). -/
def visible (u : User) : Bool := u.deletedAt.isNone

/-- `userRepository.FindByEmail`: `Where("email = ?", email).First(&user)`;
`none` models the `gorm.ErrRecordNotFound` outcome. -/
def findByEmail (s : Store) (email : String) : Option User :=
  (s.users.filter visible).find? (fun u => u.email == email)

/-- `userRepository.FindByID`: `First(&user, id)` looks the row up by
primary key. -/
def findByID (s : Store) (id : Nat) : Option User :=
  (s.users.filter visible).find? (fun u => u.id == id)

/-- `userRepository.Create`: GORM inserts the row, assigning the
auto-increment id and the created/updated timestamps on the passed
struct.  Returns the row as stored together with the new store. -/
def createUser (s : Store) (u : User) (now : Nat) : User × Store :=
  let created := { u with id := s.nextId, createdAt := now, updatedAt := now }
  (created, { users := s.users ++ [created], nextId := s.nextId + 1 })

/-- `userRepository.Update`: `Save(user)` writes the row back by primary
key. -/
def updateUser (s : Store) (u : User) : Store :=
  { s with users := s.users.map (fun v => if v.id == u.id then u else v) }

/-- Go's `math.MaxInt64`. -/
def maxInt64 : Int := 9223372036854775807

/-- Go's `math.MinInt64`. -/
def minInt64 : Int := -9223372036854775808

/-- Go's wrapping two's-complement 64-bit arithmetic: the representative
of `x` in [MinInt64, MaxInt64].  (The two numerals are 2^63 and 2^64.) -/
def wrap64 (x : Int) : Int :=
  (x + 9223372036854775808) % 18446744073709551616 - 9223372036854775808

/-- `userRepository.FindAll`: `Count` over the model then
`Offset(offset).Limit(limit).Find`; both queries run under GORM's
soft-delete scope.  `offset := (page - 1) * limit` is Go `int`
arithmetic, so both the subtraction and the product wrap at 64 bits.
GORM emits the OFFSET clause only for a positive offset (a wrapped
negative offset serves rows from the start, which `Int.toNat` maps to a
drop of 0) and the LIMIT clause only for a non-negative limit.  Returns
the page of rows and the total visible count. -/
def findAll (s : Store) (page limit : Int) : List User × Int :=
  let rows := s.users.filter visible
  let offset := wrap64 (wrap64 (page - 1) * limit)
  let pageRows :=
    if 0 ≤ limit then (rows.drop offset.toNat).take limit.toNat
    else rows.drop offset.toNat
  (pageRows, (rows.length : Int))

/-- `internal/dto/user_dto.go`: `RegisterRequest`. -/
structure RegisterRequest where
  name : String
  email : String
  password : String
deriving Repr, DecidableEq

/-- `internal/dto/user_dto.go`: `LoginRequest`. -/
structure LoginRequest where
  email : String
  password : String
deriving Repr, DecidableEq

/-- `internal/dto/user_dto.go`: `UpdateUserRequest`; in Go each field is a
plain string whose zero value `""` means "not supplied". -/
structure UpdateUserRequest where
  name : String
  email : String
  password : String
deriving Repr, DecidableEq

/-- `internal/dto/user_dto.go`: `UserResponse`, the public view of a user.
Its JSON fields are exactly id, name, email, role, is_active, created_at,
updated_at; the entity's password hash has no counterpart here. -/
structure UserResponse where
  id : Nat
  name : String
  email : String
  role : String
  isActive : Bool
  createdAt : Nat
  updatedAt : Nat
deriving Repr, DecidableEq

/-- The `dto.UserResponse{...}` literal each use-case method builds from an
entity. -/
def toUserResponse (u : User) : UserResponse :=
  { id := u.id, name := u.name, email := u.email, role := u.role,
    isActive := u.isActive, createdAt := u.createdAt, updatedAt := u.updatedAt }

/-- `internal/dto/user_dto.go`: `LoginResponse`. -/
structure LoginResponse where
  token : String
  user : UserResponse
deriving Repr, DecidableEq

/-- `userUseCase.Register`.  `hash` stands for `utils.HashPassword`
(bcrypt, external to the repository); `now` is the instant GORM stamps on
the insert.  Returns the result together with the store after the call. -/
def Register (hash : String → String) (s : Store) (now : Nat)
    (req : RegisterRequest) : Except String UserResponse × Store :=
  match findByEmail s req.email with
  | some _ => (.error "email already registered", s)
  | none =>
    let user : User :=
      { id := 0, name := req.name, email := req.email,
        password := hash req.password, role := "user", isActive := true,
        createdAt := 0, updatedAt := 0, deletedAt := none }
    let (created, s') := createUser s user now
    (.ok (toUserResponse created), s')

/-- `userUseCase.Login`.  `check` stands for `utils.CheckPassword` (bcrypt
verify) and `issue` for `jwtManager.GenerateToken`, both external to the
repository.  The branch order matches the source: unknown email, then
password mismatch, then the active flag. -/
def Login (check : String → String → Bool) (issue : Nat → String → String → String)
    (s : Store) (req : LoginRequest) : Except String LoginResponse :=
  match findByEmail s req.email with
  | none => .error "invalid email or password"
  | some user =>
    if !check req.password user.password then
      .error "invalid email or password"
    else if !user.isActive then
      .error "account is not active"
    else
      .ok { token := issue user.id user.email user.role, user := toUserResponse user }

/-- `userUseCase.Update`.  Each non-empty field of the request is applied to
the loaded row; a non-empty email is first checked against other users.
GORM's bump of `updatedAt` on `Save` is not modelled (no claim mentions
timestamps). -/
def Update (hash : String → String) (s : Store) (id : Nat)
    (req : UpdateUserRequest) : Except String UserResponse × Store :=
  match findByID s id with
  | none => (.error "user not found", s)
  | some found =>
    let u1 := if req.name != "" then { found with name := req.name } else found
    let emailTaken :=
      req.email != "" &&
        (match findByEmail s req.email with
         | some other => other.id != id
         | none => false)
    if emailTaken then
      (.error "email already taken", s)
    else
      let u2 := if req.email != "" then { u1 with email := req.email } else u1
      let u3 := if req.password != "" then { u2 with password := hash req.password } else u2
      (.ok (toUserResponse u3), updateUser s u3)

/-! ## HTTP layer (`pkg/response/response.go`, `internal/handler/user_handler.go`) -/

/-- The status line and envelope head of a handler's reply; the `data`
payload is carried separately by the handler models that need it. -/
structure HTTPReply where
  status : Int
  success : Bool
  message : String
deriving Repr, DecidableEq

/-- `response.Unauthorized`: `Error(c, http.StatusUnauthorized, message, nil)`. -/
def unauthorizedReply (message : String) : HTTPReply :=
  { status := 401, success := false, message := message }

/-- `response.BadRequest`: status `http.StatusBadRequest`. -/
def badRequestReply (message : String) : HTTPReply :=
  { status := 400, success := false, message := message }

/-- `response.NotFound`: status `http.StatusNotFound`. -/
def notFoundReply (message : String) : HTTPReply :=
  { status := 404, success := false, message := message }

/-- `response.Forbidden`: status `http.StatusForbidden`. -/
def forbiddenReply (message : String) : HTTPReply :=
  { status := 403, success := false, message := message }

/-- `response.Success`: status 200. -/
def successReply (message : String) : HTTPReply :=
  { status := 200, success := true, message := message }

/-- `UserHandler.Login` after a successful JSON bind: every use-case error
is sent through `response.Unauthorized`, success through
`response.Success(c, "Login successful", result)`. -/
def LoginHandler (check : String → String → Bool)
    (issue : Nat → String → String → String) (s : Store)
    (req : LoginRequest) : HTTPReply :=
  match Login check issue s req with
  | .error e => unauthorizedReply e
  | .ok _ => successReply "Login successful"

/-- `UserHandler.UpdateUser` after id parsing and a successful JSON bind:
every use-case error is sent through `response.BadRequest(c, err.Error(), nil)`,
success through `response.Success`. -/
def UpdateUserHandler (hash : String → String) (s : Store) (id : Nat)
    (req : UpdateUserRequest) : HTTPReply × Store :=
  match Update hash s id req with
  | (.error e, s') => (badRequestReply e, s')
  | (.ok _, s') => (successReply "User updated successfully", s')

/-! ## Pagination (`internal/handler/user_handler.go` GetUsers,
`pkg/response/response.go` BuildMeta) -/

/-- Accumulating digit parser for `strconv.Atoi`'s all-digits body:
`none` when a non-digit appears. -/
def digitsVal : List Char → Nat → Option Nat
  | [], acc => some acc
  | c :: rest, acc =>
    if c.isDigit then digitsVal rest (acc * 10 + (c.toNat - '0'.toNat)) else none

/-- `strconv.ParseInt`'s range clamp for a parse without a minus sign:
values above `math.MaxInt64` come back as MaxInt64 (with `ErrRange`,
which the handler discards). -/
def clampPos (n : Nat) : Int :=
  if (n : Int) ≤ maxInt64 then (n : Int) else maxInt64

/-- `strconv.ParseInt`'s range clamp for a parse with a minus sign:
values below `math.MinInt64` come back as MinInt64 (with `ErrRange`,
which the handler discards). -/
def clampNeg (n : Nat) : Int :=
  if minInt64 ≤ -(n : Int) then -(n : Int) else minInt64

/-- `strconv.Atoi` with the error discarded, as in
`page, _ := strconv.Atoi(...)`: an optional sign followed by at least one
digit parses to its value clamped into the int64 range (Go returns the
clamped value together with the discarded `ErrRange`), anything else
leaves the Go zero value 0. -/
def atoiOrZero (s : String) : Int :=
  match s.data with
  | [] => 0
  | '+' :: rest =>
    if rest.isEmpty then 0
    else (digitsVal rest 0).elim 0 clampPos
  | '-' :: rest =>
    if rest.isEmpty then 0
    else (digitsVal rest 0).elim 0 clampNeg
  | cs => (digitsVal cs 0).elim 0 clampPos

/-- `c.DefaultQuery(key, d)`: the query value when present, else `d`. -/
def defaultQuery (q : Option String) (d : String) : String := q.getD d

/-- The page-range check in `UserHandler.GetUsers`:
`if page < 1 { page = 1 }`. -/
def normalizePage (page : Int) : Int :=
  if page < 1 then 1 else page

/-- The limit-range check in `UserHandler.GetUsers`:
`if limit < 1 || limit > 100 { limit = 10 }`. -/
def normalizeLimit (limit : Int) : Int :=
  if limit < 1 ∨ 100 < limit then 10 else limit

/-- The query handling of `UserHandler.GetUsers`: default the two query
values, parse them with `strconv.Atoi` (errors ignored), then apply the
range checks.  Returns the (page, limit) pair passed to the use case. -/
def getUsersPageLimit (pageQ limitQ : Option String) : Int × Int :=
  let page := atoiOrZero (defaultQuery pageQ "1")
  let limit := atoiOrZero (defaultQuery limitQ "10")
  (normalizePage page, normalizeLimit limit)

/-- `response.Meta`. -/
structure Meta where
  currentPage : Int
  perPage : Int
  total : Int
  totalPages : Int
deriving Repr, DecidableEq

/-- `response.BuildMeta`: Go's `/` and `%` on integers truncate toward
zero, hence `Int.tdiv` / `Int.tmod`. -/
def BuildMeta (page perPage : Int) (total : Int) : Meta :=
  let totalPages := total.tdiv perPage
  let totalPages := if 0 < total.tmod perPage then totalPages + 1 else totalPages
  { currentPage := page, perPage := perPage, total := total,
    totalPages := totalPages }

/-! ## Token service

Modelled from the spec: `utils.NewJWTManager`, `GenerateToken` and token
verification live in `pkg/utils/jwt.go`, which is not among the sources;
only their callers (`cmd/api/main.go`, the use case, the auth middleware)
are.  The model follows the spec's Token Service contract:
`issue(userID, email, role)` produces a signed claim set
{id, email, role, issued-at, expiry = issued-at + configured duration},
and `verify` fails when the signature does not match the shared secret's
MAC over the claims or the current time is past the embedded expiry,
otherwise returning exactly {id, email, role}. -/

/-- Modelled from the spec: the claim set a token binds. -/
structure JWTClaims where
  userID : Nat
  email : String
  role : String
  issuedAt : Nat
  expiresAt : Nat
deriving Repr, DecidableEq

/-- Modelled from the spec: a token is the claim set plus a signature
over it.  The MAC itself is opaque cryptography; any concrete keyed
function of the claims models it. -/
structure SignedToken where
  claims : JWTClaims
  signature : Nat
deriving Repr, DecidableEq

/-- Modelled from the spec: the stateless manager holding the shared
secret and the configured expiry duration (`cfg.JWT.Secret`,
`cfg.JWT.ExpireHours`). -/
structure JWTManager where
  secret : String
  expireSeconds : Nat
deriving Repr, DecidableEq

/-- Modelled from the spec: the keyed MAC standing in for the HMAC
signature; only its functional dependence on secret and claims matters. -/
def macSign (secret : String) (c : JWTClaims) : Nat :=
  (secret.length + 1) * 7 + c.userID * 13 + c.email.length * 17 +
    c.role.length * 19 + c.issuedAt * 23 + c.expiresAt * 29

/-- Modelled from the spec: `issue(userID, email, role)` at instant `now`. -/
def issueToken (m : JWTManager) (id : Nat) (email role : String)
    (now : Nat) : SignedToken :=
  let c : JWTClaims :=
    { userID := id, email := email, role := role,
      issuedAt := now, expiresAt := now + m.expireSeconds }
  { claims := c, signature := macSign m.secret c }

/-- Modelled from the spec: `verify(token)` at instant `now` — an
AuthError when the signature is invalid or `now` is past the embedded
expiry, else exactly {userID, email, role}. -/
def verifyToken (m : JWTManager) (t : SignedToken) (now : Nat) :
    Except String (Nat × String × String) :=
  if t.signature ≠ macSign m.secret t.claims then
    .error "invalid token"
  else if t.claims.expiresAt < now then
    .error "token expired"
  else
    .ok (t.claims.userID, t.claims.email, t.claims.role)

/-! ## Concrete sample data used by witnesses and counterexamples -/

/-- A stored user whose account is inactive. -/
def sampleInactiveUser : User :=
  { id := 1, name := "Alice", email := "alice@example.com", password := "pw-hash",
    role := "user", isActive := false, createdAt := 0, updatedAt := 0, deletedAt := none }

/-- A one-row store holding `sampleInactiveUser`. -/
def sampleStore : Store := { users := [sampleInactiveUser], nextId := 2 }

/-- A concrete stand-in for bcrypt verification: the plaintext verifies
against exactly one digest. -/
def sampleCheck : String → String → Bool := fun plain digest => plain == digest

/-- A concrete stand-in for the external token issuer. -/
def sampleIssue : Nat → String → String → String := fun _ _ _ => "token"

/-- A concrete stand-in for bcrypt hashing. -/
def sampleHash : String → String := fun plain => plain ++ "#hashed"

/-! ## C1 — login with an inactive account -/

/-- C1 (counterexample): a login whose email matches a stored user, whose
password verifies, and whose account has active=false is answered with
HTTP status 401, not the 403 the claim states: `UserHandler.Login` routes
every use-case error through `response.Unauthorized`. -/
theorem login_inactive_counterexample :
    findByEmail sampleStore "alice@example.com" = some sampleInactiveUser ∧
    sampleCheck "pw-hash" sampleInactiveUser.password = true ∧
    sampleInactiveUser.isActive = false ∧
    (LoginHandler sampleCheck sampleIssue sampleStore
      { email := "alice@example.com", password := "pw-hash" }).status = 401 ∧
    ¬ (LoginHandler sampleCheck sampleIssue sampleStore
      { email := "alice@example.com", password := "pw-hash" }).status = 403 := by
  decide

/-- C1 (amended): for every login request whose email matches a stored
user, whose password verifies, and whose account has active=false, the
use case fails with the message "account is not active" and the HTTP
response status is 401 (the handler maps all login failures through
`response.Unauthorized`). -/
theorem login_inactive_unauthorized (check : String → String → Bool)
    (issue : Nat → String → String → String) (s : Store) (req : LoginRequest)
    (u : User) (hfind : findByEmail s req.email = some u)
    (hpw : check req.password u.password = true) (hact : u.isActive = false) :
    Login check issue s req = .error "account is not active" ∧
    (LoginHandler check issue s req).status = 401 := by
  have hlogin : Login check issue s req = .error "account is not active" := by
    unfold Login
    rw [hfind]
    simp [hpw, hact]
  refine ⟨hlogin, ?_⟩
  unfold LoginHandler
  rw [hlogin]
  rfl

/-- C1 witness: the amended statement at the concrete inactive user. -/
theorem login_inactive_unauthorized_witness :
    Login sampleCheck sampleIssue sampleStore
      { email := "alice@example.com", password := "pw-hash" } =
      .error "account is not active" ∧
    (LoginHandler sampleCheck sampleIssue sampleStore
      { email := "alice@example.com", password := "pw-hash" }).status = 401 :=
  login_inactive_unauthorized sampleCheck sampleIssue sampleStore
    { email := "alice@example.com", password := "pw-hash" }
    sampleInactiveUser (by decide) (by decide) (by decide)

/-! ## C2 — unknown email and wrong password are indistinguishable -/

/-- C2: a login whose email matches no stored user and a login whose email
matches but whose password fails verification produce the identical error
"invalid email or password" from the use case, and the handler sends the
identical reply with the Unauthorized status 401 for both. -/
theorem login_failures_indistinguishable (check : String → String → Bool)
    (issue : Nat → String → String → String)
    (s1 : Store) (r1 : LoginRequest) (s2 : Store) (r2 : LoginRequest) (u : User)
    (hnone : findByEmail s1 r1.email = none)
    (hfound : findByEmail s2 r2.email = some u)
    (hpw : check r2.password u.password = false) :
    Login check issue s1 r1 = .error "invalid email or password" ∧
    Login check issue s2 r2 = .error "invalid email or password" ∧
    LoginHandler check issue s1 r1 = LoginHandler check issue s2 r2 ∧
    (LoginHandler check issue s1 r1).status = 401 := by
  have h1 : Login check issue s1 r1 = .error "invalid email or password" := by
    unfold Login
    rw [hnone]
  have h2 : Login check issue s2 r2 = .error "invalid email or password" := by
    unfold Login
    rw [hfound]
    simp [hpw]
  refine ⟨h1, h2, ?_, ?_⟩
  · unfold LoginHandler
    rw [h1, h2]
  · unfold LoginHandler
    rw [h1]
    rfl

/-- C2 witness: an unknown email against `sampleStore`, and the stored
email with a wrong password, both answered with 401 and the same message. -/
theorem login_failures_indistinguishable_witness :
    Login sampleCheck sampleIssue sampleStore
      { email := "nobody@example.com", password := "pw-hash" } =
      .error "invalid email or password" ∧
    Login sampleCheck sampleIssue sampleStore
      { email := "alice@example.com", password := "wrong" } =
      .error "invalid email or password" ∧
    LoginHandler sampleCheck sampleIssue sampleStore
      { email := "nobody@example.com", password := "pw-hash" } =
      LoginHandler sampleCheck sampleIssue sampleStore
        { email := "alice@example.com", password := "wrong" } ∧
    (LoginHandler sampleCheck sampleIssue sampleStore
      { email := "nobody@example.com", password := "pw-hash" }).status = 401 :=
  login_failures_indistinguishable sampleCheck sampleIssue sampleStore
    { email := "nobody@example.com", password := "pw-hash" } sampleStore
    { email := "alice@example.com", password := "wrong" }
    sampleInactiveUser (by decide) (by decide) (by decide)

/-! ## C3 — registering an already-used email -/

/-- C3: when a non-deleted stored user already owns the requested email,
Register answers "email already registered" and the store is returned
unchanged — `userRepo.Create` is never reached. -/
theorem register_existing_email_conflict (hash : String → String)
    (s : Store) (now : Nat) (req : RegisterRequest) (w : User)
    (hmem : w ∈ s.users) (hvis : visible w = true) (hemail : w.email = req.email) :
    Register hash s now req = (.error "email already registered", s) := by
  have hsome : (findByEmail s req.email).isSome := by
    unfold findByEmail
    rw [List.find?_isSome]
    exact ⟨w, List.mem_filter.mpr ⟨hmem, hvis⟩, by simp [hemail]⟩
  obtain ⟨u, hu⟩ := Option.isSome_iff_exists.mp hsome
  unfold Register
  rw [hu]

/-- C3 witness: re-registering `sampleInactiveUser`'s email leaves the
one-row store unchanged. -/
theorem register_existing_email_conflict_witness :
    Register sampleHash sampleStore 5
      { name := "Mallory", email := "alice@example.com", password := "secret" } =
      (.error "email already registered", sampleStore) :=
  register_existing_email_conflict sampleHash sampleStore 5
    { name := "Mallory", email := "alice@example.com", password := "secret" }
    sampleInactiveUser (by decide) (by decide) (by decide)

/-! ## C4 — successful registration: defaults and the public view -/

/-- C4: registering a fresh email appends to the store exactly one user,
with role "user" and active=true, and the response is the public
projection of that stored user; the projection never depends on the
password hash (two stored users differing only in password produce the
same response). -/
theorem register_fresh_email_defaults_and_public_view (hash : String → String)
    (s : Store) (now : Nat) (req : RegisterRequest)
    (hfresh : ∀ w ∈ s.users, visible w = true → w.email ≠ req.email) :
    ∃ u : User,
      (Register hash s now req).2.users = s.users ++ [u] ∧
      u.role = "user" ∧ u.isActive = true ∧
      (Register hash s now req).1 = .ok (toUserResponse u) ∧
      ∀ p, toUserResponse { u with password := p } = toUserResponse u := by
  have hnone : findByEmail s req.email = none := by
    unfold findByEmail
    rw [List.find?_eq_none]
    intro x hx
    have hx' := List.mem_filter.mp hx
    simpa using hfresh x hx'.1 hx'.2
  unfold Register createUser
  rw [hnone]
  exact ⟨_, rfl, rfl, rfl, rfl, fun p => rfl⟩

/-- C4 witness: registering into the empty store. -/
theorem register_fresh_email_defaults_and_public_view_witness :
    ∃ u : User,
      (Register sampleHash { users := [], nextId := 1 } 3
        { name := "Bob", email := "bob@example.com", password := "secret" }).2.users =
        [] ++ [u] ∧
      u.role = "user" ∧ u.isActive = true ∧
      (Register sampleHash { users := [], nextId := 1 } 3
        { name := "Bob", email := "bob@example.com", password := "secret" }).1 =
        .ok (toUserResponse u) ∧
      ∀ p, toUserResponse { u with password := p } = toUserResponse u :=
  register_fresh_email_defaults_and_public_view sampleHash
    { users := [], nextId := 1 } 3
    { name := "Bob", email := "bob@example.com", password := "secret" }
    (by intro w hw; cases hw)

/-! ## C5 — update of a missing id: the handler's status -/

/-- C5 (code evaluated at the failing input): updating an id for which
`FindByID` reports no row makes the use case fail with "user not found",
but `UserHandler.UpdateUser` routes every use-case error through
`response.BadRequest`, so the HTTP status is 400, not the 404 the claim
(and the handler's own `@Failure 404` swagger annotation, and the sibling
GetUser/DeleteUser handlers) prescribe for this error. -/
theorem update_missing_user_bad_request :
    findByID { users := [], nextId := 1 } 999 = none ∧
    UpdateUserHandler sampleHash { users := [], nextId := 1 } 999
      { name := "Newname", email := "", password := "" } =
      (badRequestReply "user not found", { users := [], nextId := 1 }) ∧
    (badRequestReply "user not found").status = 400 ∧
    ¬ (badRequestReply "user not found").status = 404 := by
  decide

/-! ## C6 — update supplying only an email -/

/-- C6: for an existing user and an update request whose only supplied
field is a non-empty email: when no other user owns that email, the
persisted row is exactly the old row with only the email replaced (name
and password hash untouched) and the response is its public view; when a
user with a different id owns it, Update fails with "email already taken"
and returns the store unchanged — `userRepo.Update` is never reached. -/
theorem update_email_only_frame (hash : String → String) (s : Store) (id : Nat)
    (req : UpdateUserRequest) (u : User)
    (hfind : findByID s id = some u)
    (hname : req.name = "") (hpwd : req.password = "") (hemail : req.email ≠ "") :
    ((∀ v, findByEmail s req.email = some v → v.id = id) →
      Update hash s id req =
        (.ok (toUserResponse { u with email := req.email }),
         updateUser s { u with email := req.email })) ∧
    (∀ v, findByEmail s req.email = some v → ¬ v.id = id →
      Update hash s id req = (.error "email already taken", s)) := by
  have hbne : (req.email != "") = true := by simp [hemail]
  constructor
  · intro hown
    unfold Update
    rw [hfind]
    cases hfe : findByEmail s req.email with
    | none => simp [hname, hpwd, hbne, hfe]
    | some v => simp [hname, hpwd, hbne, hfe, hown v hfe]
  · intro v hfe hvne
    unfold Update
    rw [hfind]
    simp [hname, hpwd, hbne, hfe, hvne]

/-- C6 witness: changing `sampleInactiveUser`'s email to an unowned
address persists only the email change. -/
theorem update_email_only_frame_witness :
    Update sampleHash sampleStore 1
      { name := "", email := "new@example.com", password := "" } =
      (.ok (toUserResponse { sampleInactiveUser with email := "new@example.com" }),
       updateUser sampleStore { sampleInactiveUser with email := "new@example.com" }) :=
  have hnone : findByEmail sampleStore "new@example.com" = none := by decide
  (update_email_only_frame sampleHash sampleStore 1
      { name := "", email := "new@example.com", password := "" }
      sampleInactiveUser (by decide) rfl rfl (by decide)).1
    (fun v hv => Option.noConfusion (hnone.symm.trans hv))

/-! ## C7 — token round-trip and expiry -/

/-- C7: verifying a token immediately after issuing it for (id, email,
role) returns exactly that triple; verifying the same token at any
instant past its embedded expiry fails with an authentication error. -/
theorem token_roundtrip_and_expiry (m : JWTManager) (id : Nat)
    (email role : String) (now later : Nat)
    (hlate : (issueToken m id email role now).claims.expiresAt < later) :
    verifyToken m (issueToken m id email role now) now = .ok (id, email, role) ∧
    verifyToken m (issueToken m id email role now) later = .error "token expired" := by
  simp only [issueToken] at hlate ⊢
  constructor
  · unfold verifyToken
    simp [Nat.not_lt.mpr (Nat.le_add_right now m.expireSeconds)]
  · unfold verifyToken
    simp [hlate]

/-- C7 witness: a token issued at instant 100 with a one-hour expiry
verifies at 100 and fails at 3701. -/
theorem token_roundtrip_and_expiry_witness :
    verifyToken ⟨"secret", 3600⟩
      (issueToken ⟨"secret", 3600⟩ 5 "alice@example.com" "admin" 100) 100 =
      .ok (5, "alice@example.com", "admin") ∧
    verifyToken ⟨"secret", 3600⟩
      (issueToken ⟨"secret", 3600⟩ 5 "alice@example.com" "admin" 100) 3701 =
      .error "token expired" :=
  token_roundtrip_and_expiry ⟨"secret", 3600⟩ 5 "alice@example.com" "admin"
    100 3701 (by decide)

/-! ## C8 — pagination normalization and the store offset -/

/-- The positive clamp stays inside the int64 range. -/
theorem clampPos_bounds (n : Nat) :
    minInt64 ≤ clampPos n ∧ clampPos n ≤ maxInt64 := by
  have h0 : (0 : Int) ≤ (n : Int) := Int.natCast_nonneg n
  have hm1 : minInt64 ≤ (0 : Int) := by decide
  have hm2 : (0 : Int) ≤ maxInt64 := by decide
  unfold clampPos
  split <;> omega

/-- The negative clamp stays inside the int64 range. -/
theorem clampNeg_bounds (n : Nat) :
    minInt64 ≤ clampNeg n ∧ clampNeg n ≤ maxInt64 := by
  have h0 : -((n : Int)) ≤ 0 := neg_nonpos.mpr (Int.natCast_nonneg n)
  have hm1 : minInt64 ≤ (0 : Int) := by decide
  have hm2 : (0 : Int) ≤ maxInt64 := by decide
  unfold clampNeg
  split <;> omega

/-- A parse through the positive clamp stays inside the int64 range. -/
theorem elimClampPos_bounds (o : Option Nat) :
    minInt64 ≤ o.elim 0 clampPos ∧ o.elim 0 clampPos ≤ maxInt64 := by
  cases o with
  | none => exact ⟨by decide, by decide⟩
  | some n => exact clampPos_bounds n

/-- A parse through the negative clamp stays inside the int64 range. -/
theorem elimClampNeg_bounds (o : Option Nat) :
    minInt64 ≤ o.elim 0 clampNeg ∧ o.elim 0 clampNeg ≤ maxInt64 := by
  cases o with
  | none => exact ⟨by decide, by decide⟩
  | some n => exact clampNeg_bounds n

/-- `strconv.Atoi` with the error discarded always yields an int64
value. -/
theorem atoiOrZero_bounds (s : String) :
    minInt64 ≤ atoiOrZero s ∧ atoiOrZero s ≤ maxInt64 := by
  unfold atoiOrZero
  split
  · exact ⟨by decide, by decide⟩
  · split
    · exact ⟨by decide, by decide⟩
    · exact elimClampPos_bounds _
  · split
    · exact ⟨by decide, by decide⟩
    · exact elimClampNeg_bounds _
  · exact elimClampPos_bounds _

/-- Two's-complement wrapping is the identity on the int64 range. -/
theorem wrap64_eq_self (x : Int) (h1 : minInt64 ≤ x) (h2 : x ≤ maxInt64) :
    wrap64 x = x := by
  unfold minInt64 at h1
  unfold maxInt64 at h2
  unfold wrap64
  rw [Int.emod_eq_of_lt (by omega) (by omega)]
  omega

/-- For an in-range page ≥ 1 and a non-negative limit, `FindAll` serves
the rows at the wrapped offset. -/
theorem findAll_serves_wrapped_offset (s : Store) (page limit : Int)
    (h1 : 1 ≤ page) (hM : page ≤ maxInt64) (h2 : 0 ≤ limit) :
    (findAll s page limit).1 =
      ((s.users.filter visible).drop
        ((wrap64 ((page - 1) * limit)).toNat)).take limit.toNat := by
  have hm : minInt64 ≤ (0 : Int) := by decide
  have hwp : wrap64 (page - 1) = page - 1 :=
    wrap64_eq_self _ (by omega) (by omega)
  show (if 0 ≤ limit then
        ((s.users.filter visible).drop
          ((wrap64 (wrap64 (page - 1) * limit)).toNat)).take limit.toNat
      else
        (s.users.filter visible).drop
          ((wrap64 (wrap64 (page - 1) * limit)).toNat)) = _
  rw [if_pos h2, hwp]

/-- When the offset product does not overflow int64, the wrapped offset
is the mathematical one. -/
theorem findAll_serves_exact_offset (s : Store) (page limit : Int)
    (h1 : 1 ≤ page) (hM : page ≤ maxInt64) (h2 : 0 ≤ limit)
    (hov : (page - 1) * limit ≤ maxInt64) :
    (findAll s page limit).1 =
      ((s.users.filter visible).drop
        (((page - 1) * limit).toNat)).take limit.toNat := by
  have hm : minInt64 ≤ (0 : Int) := by decide
  have hprod : 0 ≤ (page - 1) * limit := mul_nonneg (by omega) h2
  rw [findAll_serves_wrapped_offset s page limit h1 hM h2,
    wrap64_eq_self _ (by omega) hov]

/-- C8 (counterexample): the page query value 10^18 + 1 with limit 10
passes normalization untouched, but Go computes the offset
(page − 1) × limit in wrapping int64 arithmetic: 10^19 wraps to the
negative −8446744073709551616, GORM omits the non-positive OFFSET
clause, and the first rows are served — not the empty page that sits
at mathematical offset 10^19. -/
theorem get_users_offset_overflow_counterexample :
    getUsersPageLimit (some "1000000000000000001") (some "10") =
      (1000000000000000001, 10) ∧
    wrap64 ((1000000000000000001 - 1 : Int) * 10) = -8446744073709551616 ∧
    (findAll sampleStore 1000000000000000001 10).1 = [sampleInactiveUser] ∧
    ¬ (findAll sampleStore 1000000000000000001 10).1 =
        ((sampleStore.users.filter visible).drop
          (((1000000000000000001 - 1 : Int) * 10).toNat)).take
          ((10 : Int)).toNat := by
  decide

/-- C8 (amended): whatever the raw page/limit query values (missing,
non-numeric, zero, negative, over-limit), the pair `GetUsers` passes to
the use case satisfies page ≥ 1 and 1 ≤ limit ≤ 100, the all-defaults
request yields (1, 10), and `FindAll` serves the rows at the offset
obtained by computing (page − 1) × limit in wrapping int64 arithmetic —
which equals (page − 1) × limit itself whenever that product is at most
MaxInt64. -/
theorem get_users_pagination_normalized_wrapped
    (pageQ limitQ : Option String) (s : Store) :
    1 ≤ (getUsersPageLimit pageQ limitQ).1 ∧
    1 ≤ (getUsersPageLimit pageQ limitQ).2 ∧
    (getUsersPageLimit pageQ limitQ).2 ≤ 100 ∧
    getUsersPageLimit none none = (1, 10) ∧
    (findAll s (getUsersPageLimit pageQ limitQ).1
        (getUsersPageLimit pageQ limitQ).2).1 =
      ((s.users.filter visible).drop
        ((wrap64 (((getUsersPageLimit pageQ limitQ).1 - 1) *
          (getUsersPageLimit pageQ limitQ).2)).toNat)).take
        ((getUsersPageLimit pageQ limitQ).2).toNat ∧
    (((getUsersPageLimit pageQ limitQ).1 - 1) *
        (getUsersPageLimit pageQ limitQ).2 ≤ maxInt64 →
      (findAll s (getUsersPageLimit pageQ limitQ).1
          (getUsersPageLimit pageQ limitQ).2).1 =
        ((s.users.filter visible).drop
          ((((getUsersPageLimit pageQ limitQ).1 - 1) *
            (getUsersPageLimit pageQ limitQ).2).toNat)).take
          ((getUsersPageLimit pageQ limitQ).2).toNat) := by
  have hpage1 : 1 ≤ (getUsersPageLimit pageQ limitQ).1 := by
    show 1 ≤ normalizePage (atoiOrZero (defaultQuery pageQ "1"))
    unfold normalizePage
    split <;> omega
  have hpageM : (getUsersPageLimit pageQ limitQ).1 ≤ maxInt64 := by
    show normalizePage (atoiOrZero (defaultQuery pageQ "1")) ≤ maxInt64
    have ha := (atoiOrZero_bounds (defaultQuery pageQ "1")).2
    have h1M : (1 : Int) ≤ maxInt64 := by decide
    unfold normalizePage
    split <;> omega
  have hlim1 : 1 ≤ (getUsersPageLimit pageQ limitQ).2 := by
    show 1 ≤ normalizeLimit (atoiOrZero (defaultQuery limitQ "10"))
    unfold normalizeLimit
    split <;> omega
  have hlim100 : (getUsersPageLimit pageQ limitQ).2 ≤ 100 := by
    show normalizeLimit (atoiOrZero (defaultQuery limitQ "10")) ≤ 100
    unfold normalizeLimit
    split <;> omega
  refine ⟨hpage1, hlim1, hlim100, by decide, ?_, ?_⟩
  · exact findAll_serves_wrapped_offset s _ _ hpage1 hpageM
      (le_trans zero_le_one hlim1)
  · intro hov
    exact findAll_serves_exact_offset s _ _ hpage1 hpageM
      (le_trans zero_le_one hlim1) hov

/-- C8 witness: page=3, limit=10 over the one-row store — no overflow,
so the rows are served at the mathematical offset (3 − 1) × 10. -/
theorem get_users_pagination_normalized_wrapped_witness :
    getUsersPageLimit (some "3") (some "10") = (3, 10) ∧
    (findAll sampleStore (getUsersPageLimit (some "3") (some "10")).1
        (getUsersPageLimit (some "3") (some "10")).2).1 =
      ((sampleStore.users.filter visible).drop
        ((((getUsersPageLimit (some "3") (some "10")).1 - 1) *
          (getUsersPageLimit (some "3") (some "10")).2).toNat)).take
        ((getUsersPageLimit (some "3") (some "10")).2).toNat :=
  ⟨by decide,
   (get_users_pagination_normalized_wrapped (some "3") (some "10")
     sampleStore).2.2.2.2.2 (by decide)⟩

/-! ## C9 — BuildMeta computes the ceiling -/

/-- The ceiling of a quotient of naturals, expressed through Go's
truncated quotient and remainder: the arithmetic behind `BuildMeta`. -/
theorem ceil_natCast_div_eq (t p : Nat) (hp : 0 < p) :
    ⌈(t : ℚ) / (p : ℚ)⌉ = ((t / p : Nat) : Int) + (if 0 < t % p then 1 else 0) := by
  have hp0 : (0 : ℚ) < (p : ℚ) := by exact_mod_cast hp
  have hmod := Nat.div_add_mod t p
  have hlt := Nat.mod_lt t hp
  rcases Nat.eq_zero_or_pos (t % p) with hr | hr
  · have ht : t = p * (t / p) := by omega
    have hq : (t : ℚ) / (p : ℚ) = ((t / p : Nat) : ℚ) := by
      rw [div_eq_iff (ne_of_gt hp0)]
      have hc := congrArg (Nat.cast (R := ℚ)) ht
      push_cast at hc
      rw [hc]
      ring
    rw [if_neg (by omega), add_zero, hq, Int.ceil_natCast]
  · have h1 : t / p * p < t := by
      calc t / p * p = p * (t / p) := Nat.mul_comm _ _
        _ < p * (t / p) + t % p := Nat.lt_add_of_pos_right hr
        _ = t := hmod
    have h2 : t ≤ (t / p + 1) * p := by
      have : t < (t / p + 1) * p := by
        calc t = p * (t / p) + t % p := hmod.symm
          _ < p * (t / p) + p := by omega
          _ = (t / p + 1) * p := by ring
      omega
    rw [if_pos hr, Int.ceil_eq_iff]
    constructor
    · push_cast
      rw [add_sub_cancel_right, lt_div_iff₀ hp0]
      exact_mod_cast h1
    · push_cast
      rw [div_le_iff₀ hp0]
      exact_mod_cast h2

/-- C9: for total ≥ 0 and per-page ≥ 1, `BuildMeta` sets total_pages to
the ceiling of total divided by per-page, and echoes page, per-page and
total unchanged. -/
theorem build_meta_ceiling (page perPage total : Int)
    (htotal : 0 ≤ total) (hper : 1 ≤ perPage) :
    (BuildMeta page perPage total).totalPages =
      ⌈(total : ℚ) / (perPage : ℚ)⌉ ∧
    (BuildMeta page perPage total).currentPage = page ∧
    (BuildMeta page perPage total).perPage = perPage ∧
    (BuildMeta page perPage total).total = total := by
  refine ⟨?_, rfl, rfl, rfl⟩
  obtain ⟨t, rfl⟩ := Int.eq_ofNat_of_zero_le htotal
  obtain ⟨p, rfl⟩ := Int.eq_ofNat_of_zero_le (le_trans zero_le_one hper)
  have hp : 0 < p := by exact_mod_cast hper
  have htd : ((t : Int)).tdiv ((p : Int)) = ((t / p : Nat) : Int) := rfl
  have htm : ((t : Int)).tmod ((p : Int)) = ((t % p : Nat) : Int) := rfl
  show (if 0 < ((t : Int)).tmod ((p : Int)) then ((t : Int)).tdiv ((p : Int)) + 1
        else ((t : Int)).tdiv ((p : Int))) = _
  rw [htd, htm,
    show (((t : Int) : ℚ)) = ((t : ℚ)) by push_cast; rfl,
    show (((p : Int) : ℚ)) = ((p : ℚ)) by push_cast; rfl,
    ceil_natCast_div_eq t p hp]
  simp only [Int.natCast_pos]
  split <;> simp

/-- C9 witness: 25 rows at per-page 10 give total_pages 3 = ⌈25/10⌉. -/
theorem build_meta_ceiling_witness :
    (BuildMeta 1 10 25).totalPages = ⌈((25 : ℤ) : ℚ) / ((10 : ℤ) : ℚ)⌉ ∧
    (BuildMeta 1 10 25).totalPages = 3 ∧
    (BuildMeta 1 10 25).currentPage = 1 ∧
    (BuildMeta 1 10 25).perPage = 10 ∧
    (BuildMeta 1 10 25).total = 25 :=
  ⟨(build_meta_ceiling 1 10 25 (by norm_num) (by norm_num)).1,
   by decide, rfl, rfl, rfl⟩

/-! ## C10 — out-of-range limit resets to the default -/

/-- C10: a limit query value parsing outside [1, 100] makes `GetUsers`
reset the page size to the default 10 (it is not clamped to a bound). -/
theorem limit_out_of_range_resets_to_ten (limitQ : Option String)
    (h : atoiOrZero (defaultQuery limitQ "10") < 1 ∨
         100 < atoiOrZero (defaultQuery limitQ "10")) :
    (getUsersPageLimit none limitQ).2 = 10 := by
  show normalizeLimit (atoiOrZero (defaultQuery limitQ "10")) = 10
  unfold normalizeLimit
  exact if_pos h

/-- C10 witness: limit=150 is served with per_page 10, not 100. -/
theorem limit_out_of_range_resets_to_ten_witness :
    100 < atoiOrZero (defaultQuery (some "150") "10") ∧
    (getUsersPageLimit none (some "150")).2 = 10 ∧
    ¬ (getUsersPageLimit none (some "150")).2 = 100 :=
  ⟨by decide,
   limit_out_of_range_resets_to_ten (some "150") (Or.inr (by decide)),
   by decide⟩

end CleanArch
